import Mathlib

/-!
A verification development for `src/automate_apsr.js`, a browser script that
collects bibliographic records from a paginated search listing, normalizes
their text encoding, and exports them as CSV.

The JavaScript is embedded shallowly:

* strings are `String` / `List Char`;
* the DOM of one results page is a `Page` value (presence of the results
  container, presence of the "next page" control, the entry rows, and the
  page-global citation download link);
* one run's environment is the sequence of documents the browser shows,
  `Env.pages : Nat → Page`, indexed by the number of page transitions so far;
* the mutable closure state of `automate_aspr` is the explicit `LoopState`;
* `setTimeout`-based fixed delays have no observable effect on this state
  and are not modelled; the content that becomes queryable after a delay is
  part of the `Page`/`Row` data (`abstractContent`, `downloadLink`);
* console/file side effects are recorded as an ordered `Event` trace;
* the unbounded `while` loop is run on explicit fuel, one unit per
  iteration: `none` means the loop has not reached its terminal code within
  the given fuel (for every fuel), `some` carries the final state.
-/

/-- The character set removed by JavaScript's `String.prototype.trim`:
ECMAScript WhiteSpace (TAB, VT, FF, SP, NBSP, ZWNBSP and the Zs category)
plus LineTerminator (LF, CR, LS, PS). -/
def jsWhitespaceChars : List Char :=
  ['\t', '\n', '\u000B', '\u000C', '\r', ' ', '\u00A0', '\u1680',
   '\u2000', '\u2001', '\u2002', '\u2003', '\u2004', '\u2005', '\u2006',
   '\u2007', '\u2008', '\u2009', '\u200A', '\u2028', '\u2029', '\u202F',
   '\u205F', '\u3000', '\uFEFF']

/-- Whether `String.prototype.trim` removes this character. -/
def isJsWhitespace (c : Char) : Bool :=
  jsWhitespaceChars.contains c

/-- `String.prototype.trim` on a character list: drop JavaScript whitespace
from both ends. -/
def trimChars (l : List Char) : List Char :=
  ((l.dropWhile isJsWhitespace).reverse.dropWhile isJsWhitespace).reverse

/-- `String.prototype.trim`. -/
def jsTrim (s : String) : String :=
  String.mk (trimChars s.toList)

/-- Platform primitive modelled from the spec: `String.prototype.normalize('NFC')`
("canonical Unicode composition", spec 4.1) is a browser builtin, not code of
this repository.  Canonical composition is the identity on strings that are
already in NFC, and every character literal occurring in this development —
the repair table's `U+221A` patterns, their precomposed Latin replacement
characters, and all concrete inputs evaluated below — is a single NFC-stable
starter, so on the strings this development reasons about the builtin acts as
the identity, which is how it is modelled. -/
def nfc (l : List Char) : List Char := l

/-- One step of the repair table: `text.replace(/ab/g, 'c')` for a two-character
literal pattern `ab` and a one-character replacement `c` (every rule of
`NormalizeEncoding` has this shape).  Scans left to right; on a match both
pattern characters are consumed and scanning resumes after them, so newly
created occurrences that overlap a replacement are not rescanned — exactly the
semantics of a global regex replace, which finds non-overlapping matches in the
original string. -/
def replacePair (a b c : Char) : List Char → List Char
  | [] => []
  | [x] => [x]
  | x :: y :: rest =>
    if x = a ∧ y = b then c :: replacePair a b c rest
    else x :: replacePair a b c (y :: rest)

/-- The ordered replacement table of `NormalizeEncoding`
(src/automate_apsr.js lines 216–244), one entry per `.replace` call:
`((pattern first char, pattern second char), replacement char)`. -/
def rules : List ((Char × Char) × Char) :=
  [(('√', 'ò'), 'Ø'),
   (('√', '¶'), 'æ'),
   (('√', '¶'), 'å'),
   (('√', '∏'), 'Å'),
   (('√', 'º'), 'ø'),
   (('√', '§'), 'ß'),
   (('√', '©'), 'é'),
   (('√', '¨'), 'è'),
   (('√', 'î'), 'ö'),
   (('√', 'ñ'), 'ü'),
   (('√', 'Ä'), 'ä'),
   (('√', 'á'), 'á'),
   (('√', 'í'), 'í'),
   (('√', 'ó'), 'ó'),
   (('√', 'ú'), 'ú'),
   (('√', 'à'), 'à'),
   (('√', 'ù'), 'ù'),
   (('√', 'â'), 'â'),
   (('√', 'ê'), 'ê'),
   (('√', 'î'), 'î'),
   (('√', 'ô'), 'ô'),
   (('√', 'û'), 'û'),
   (('√', 'ë'), 'ë'),
   (('√', 'ï'), 'ï'),
   (('√', 'ÿ'), 'ÿ'),
   (('√', 'æ'), 'æ'),
   (('√', 'Æ'), 'Æ'),
   (('√', 'Ø'), 'Ø'),
   (('√', 'ö'), 'ö')]

/-- Apply a replacement table in order (the chained `.replace` calls). -/
def applyRules (rs : List ((Char × Char) × Char)) (l : List Char) : List Char :=
  rs.foldl (fun acc r => replacePair r.1.1 r.1.2 r.2 acc) l

/-- `NormalizeEncoding` (src/automate_apsr.js lines 212–245):
`text.trim().normalize('NFC')` followed by the ordered replacement table. -/
def NormalizeEncoding (s : String) : String :=
  String.mk (applyRules rules (nfc (trimChars s.toList)))

/-- `Array.prototype.join(sep)`. -/
def jsJoin (sep : String) : List String → String
  | [] => ""
  | [a] => a
  | a :: b :: t => a ++ sep ++ jsJoin sep (b :: t)

example : NormalizeEncoding "  √©t√© " = "été" := by decide

example : NormalizeEncoding "√√á" = "√á" := by decide

example : NormalizeEncoding "√á" = "á" := by decide

/-- One entry row of a results page (`.representation.overview.search`), as
the extraction code queries it.  The mandatory sub-elements (title link,
date, citation count) are carried as their text/attribute content; the two
UI-revealed parts carry their queryability: `abstractButton` is the presence
of the `toggleViewHide` reveal control, `abstractContent` is the row-scoped
`.abstract[data-abstract-type="normal"]` text found after the fixed delay
(`none` if still absent), `citationModal` is the presence of the
`.citation .listing-citation-modal` trigger. -/
structure Row where
  titleText : String
  authorTexts : List String
  dateText : String
  citedByText : String
  articleHref : String
  abstractButton : Bool
  abstractContent : Option String
  citationModal : Bool
deriving DecidableEq, Repr

/-- One loaded results document: presence of the `#maincontent` container,
presence of the `a[aria-label="Next page"]` control inside it, the entry
rows, and the document-global `a[href^="/core/services/aop-cambridge-core/download/cited-by"]`
overlay link found after a citation trigger is invoked (`none` if absent).
The download link lives on the `Page`, not on a `Row`, because the source
re-queries it on `document` rather than on the entry. -/
structure Page where
  hasMainContent : Bool
  hasNextLink : Bool
  rows : List Row
  downloadLink : Option String
deriving DecidableEq, Repr

/-- The run environment: the document shown after `k` next-page transitions. -/
structure Env where
  pages : Nat → Page

/-- One collected record, the object literal pushed onto `aspr_data`
(src/automate_apsr.js lines 93–101). -/
structure Record where
  title : String
  authors : String
  published_online_date : String
  cited_by_count : String
  abstract : String
  article_link : String
  all_citing_papers_link : String
deriving DecidableEq, Repr

/-- The key/value pairs of the pushed object literal, in insertion order —
what `Object.keys` / `Object.values` enumerate. -/
def Record.toPairs (r : Record) : List (String × String) :=
  [("title", r.title),
   ("authors", r.authors),
   ("published_online_date", r.published_online_date),
   ("cited_by_count", r.cited_by_count),
   ("abstract", r.abstract),
   ("article_link", r.article_link),
   ("all_citing_papers_link", r.all_citing_papers_link)]

/-- Observable console/file side effects, in order of occurrence. -/
inductive Event where
  /-- `console.log(JSON.stringify(aspr_data, null, 3))`: the serialized dump
  of the full record list. -/
  | logJson : List Record → Event
  /-- The file save performed by `DownlaodResultsAsCSV`: blob content
  (BOM-prefixed CSV text) and filename. -/
  | saveFile : String → String → Event
  /-- `console.warn('No data available to download.')` — the empty-list
  no-op notice of `DownlaodResultsAsCSV`. -/
  | warnNoData : Event
  /-- A call `ConsoleErrorsAndWarnings(errors, warnings)` with the current
  buffer contents (prints each non-empty buffer as a 0-indexed list). -/
  | flushDiag : List String → List String → Event
deriving DecidableEq, Repr

/-- The closure state of `automate_aspr`: `aspr_data`, `next_page_link`
(modelled as presence of the element the variable currently refers to;
initially `undefined`), `page_count`, the two diagnostic buffers, and the
observable event trace. -/
structure LoopState where
  asprData : List Record
  nextPageLink : Bool
  pageCount : Nat
  errors : List String
  warnings : List String
  trace : List Event
deriving DecidableEq, Repr

/-- State at the top of `automate_aspr`. -/
def initialState : LoopState :=
  { asprData := [], nextPageLink := false, pageCount := 0,
    errors := [], warnings := [], trace := [] }

/-- `RetrieveAbstract` (src/automate_apsr.js lines 111–132).  Returns the
warnings it pushes and the string the promise resolves with; it always
resolves (never rejects), so no failure propagates across this boundary. -/
def RetrieveAbstract (row : Row) (title : String) : List String × String :=
  if row.abstractButton then
    match row.abstractContent with
    | none => (["Abstract not found for \"" ++ title ++ "\"."], "N/A")
    | some text => ([], NormalizeEncoding text)
  else
    (["Abstract extraction failed for \"" ++ title ++ "\"."], "N/A")

/-- `RetrieveCitingPapersLink` (src/automate_apsr.js lines 140–163).  The
post-delay re-query reads the document-global `page.downloadLink`, not the
row.  Returns pushed warnings and the resolved string; it always resolves. -/
def RetrieveCitingPapersLink (page : Page) (row : Row) (title : String) :
    List String × String :=
  if row.citationModal then
    match page.downloadLink with
    | none => (["Download link not found for \"" ++ title ++ "\"."], "N/A")
    | some link => ([], link)
  else
    (["Popup initiation failed for \"" ++ title ++ "\"."], "N/A")

/-- The body of one iteration of the row loop (src/automate_apsr.js lines
78–101): read the synchronous fields, await the two UI-revealed fields, and
build the object to push.  Returns the warnings pushed while extracting and
the record. -/
def extractRecord (page : Page) (row : Row) : List String × Record :=
  let title := NormalizeEncoding row.titleText
  let authors := NormalizeEncoding (jsJoin ", " (row.authorTexts.map jsTrim))
  let published_online_date := jsTrim row.dateText
  let cited_by_count := jsTrim row.citedByText
  let article_link := row.articleHref
  let ab := RetrieveAbstract row title
  let cl := RetrieveCitingPapersLink page row title
  (ab.1 ++ cl.1,
   { title := title, authors := authors,
     published_online_date := published_online_date,
     cited_by_count := cited_by_count, abstract := ab.2,
     article_link := article_link,
     all_citing_papers_link := cl.2 })

/-- The `for (let current_row of all_results_rows)` loop of
`collect_aspr_page_data` (src/automate_apsr.js lines 73–102): for each row,
first check the quota, then extract the fields and push one record. -/
def processRows (page : Page) (collection_count : Nat) :
    List Row → LoopState → LoopState
  | [], st => st
  | row :: rest, st =>
    if st.asprData.length ≥ collection_count then st
    else
      let rc := extractRecord page row
      processRows page collection_count rest
        { st with
          warnings := st.warnings ++ rc.1,
          asprData := st.asprData ++ [rc.2] }

/-- `collect_aspr_page_data` (src/automate_apsr.js lines 46–103) on the
document currently shown (`env.pages st.pageCount`).  Note the three early
returns: missing container (fatal error, `next_page_link` left as it was),
missing next-page link (warning pushed and immediate return — the rows of
this page are not visited), zero rows (fatal error); each flushes the
diagnostic buffers before returning. -/
def collect_aspr_page_data (env : Env) (collection_count : Nat)
    (st : LoopState) : LoopState :=
  let page := env.pages st.pageCount
  if !page.hasMainContent then
    let st := { st with errors := st.errors ++ ["Selector #maincontent NOT found."] }
    { st with trace := st.trace ++ [Event.flushDiag st.errors st.warnings] }
  else
    let st := { st with nextPageLink := page.hasNextLink }
    if !page.hasNextLink then
      let st := { st with warnings := st.warnings ++
        ["Next page link NOT found. Collection quantity may run short."] }
      { st with trace := st.trace ++ [Event.flushDiag st.errors st.warnings] }
    else if page.rows.length = 0 then
      let st := { st with errors := st.errors ++ ["No search results found."] }
      { st with trace := st.trace ++ [Event.flushDiag st.errors st.warnings] }
    else
      processRows page collection_count page.rows st

/-- `DownlaodResultsAsCSV` (src/automate_apsr.js lines 187–209), as the
events it emits: the empty-list console notice, or the file save whose blob
is `"\uFEFF"` (the byte-order mark) prepended to `Object.keys(jsonData[0]).join(',') + '\n'`
followed by the rows, each value wrapped in literal double quotes with no
escaping, rows joined by `'\n'`. -/
def DownlaodResultsAsCSV (jsonData : List Record) (filename : String) :
    List Event :=
  match jsonData with
  | [] => [Event.warnNoData]
  | first :: _ =>
    let headers := jsJoin "," (first.toPairs.map Prod.fst) ++ "\n"
    let csv_rows := jsJoin "\n" (jsonData.map fun row =>
      jsJoin "," (row.toPairs.map fun kv => "\"" ++ kv.2 ++ "\""))
    [Event.saveFile ("\uFEFF" ++ (headers ++ csv_rows)) filename]

/-- The code after the `while` loop of `collect_aspr_data`
(src/automate_apsr.js lines 38–40), run on every path that leaves the loop:
log the serialized records, export them as CSV, then flush the diagnostic
buffers — in that order. -/
def terminalExport (st : LoopState) : LoopState :=
  { st with trace := st.trace
      ++ [Event.logJson st.asprData]
      ++ DownlaodResultsAsCSV st.asprData "apsr_results.csv"
      ++ [Event.flushDiag st.errors st.warnings] }

/-- The `while (aspr_data.length < collection_count)` loop of
`collect_aspr_data` (src/automate_apsr.js lines 18–41), one fuel unit per
iteration.  `none` means the loop is still running when the fuel runs out;
`some st` means the loop exited and the terminal code ran.  Clicking the
next-page link navigates, which the model renders as `pageCount + 1`
selecting the next document from the environment. -/
def collectLoop (env : Env) (collection_count : Nat) :
    Nat → LoopState → Option LoopState
  | 0, _ => none
  | fuel + 1, st =>
    if st.asprData.length < collection_count then
      let st1 := collect_aspr_page_data env collection_count st
      if st1.asprData.length ≥ collection_count then
        some (terminalExport st1)
      else if !st1.nextPageLink then
        some (terminalExport { st1 with errors := st1.errors ++
          ["Next page link not found on page " ++ toString st1.pageCount ++ "."] })
      else
        collectLoop env collection_count fuel
          { st1 with pageCount := st1.pageCount + 1 }
    else
      some (terminalExport st)

/-- `collect_aspr_data` started from the initial closure state of
`automate_aspr(collection_count)`. -/
def collect_aspr_data (env : Env) (collection_count : Nat) (fuel : Nat) :
    Option LoopState :=
  collectLoop env collection_count fuel initialState

/-! ### Properties of the replacement chain -/

/-- Whether the two adjacent characters `a, b` occur somewhere in `l`. -/
def containsPair (a b : Char) : List Char → Bool
  | [] => false
  | x :: rest => (x == a && rest.head? == some b) || containsPair a b rest

theorem containsPair_tail_false {a b x : Char} {t : List Char}
    (h : containsPair a b (x :: t) = false) : containsPair a b t = false := by
  rw [containsPair] at h
  exact (Bool.or_eq_false_iff.mp h).2

/-- A replacement step either keeps the head of the list or puts the
replacement character in front. -/
theorem head?_replacePair (a b c : Char) (l : List Char) :
    (replacePair a b c l).head? = l.head? ∨ (replacePair a b c l).head? = some c := by
  match l with
  | [] => exact Or.inl rfl
  | [x] => exact Or.inl rfl
  | x :: y :: rest =>
    by_cases h : x = a ∧ y = b
    · right; rw [replacePair, if_pos h]; rfl
    · left; rw [replacePair, if_neg h]; rfl

/-- If the pattern does not occur, the replacement step is the identity. -/
theorem replacePair_eq_self (a b c : Char) :
    ∀ l, containsPair a b l = false → replacePair a b c l = l
  | [], _ => rfl
  | [x], _ => rfl
  | x :: y :: rest, h => by
    have h1 : ¬(x = a ∧ y = b) := by
      intro hc
      rw [containsPair] at h
      simp [hc.1, hc.2] at h
    rw [replacePair, if_neg h1]
    rw [replacePair_eq_self a b c (y :: rest) (containsPair_tail_false h)]

/-- Replacing the pattern `ab` by a character equal to neither `a` nor `b`
removes every occurrence of `ab`. -/
theorem containsPair_replacePair_self (a b c : Char) (hca : c ≠ a) (hcb : c ≠ b) :
    ∀ l, containsPair a b (replacePair a b c l) = false
  | [] => rfl
  | [x] => by
    rw [replacePair, containsPair, containsPair]
    simp
  | x :: y :: rest => by
    by_cases h : x = a ∧ y = b
    · rw [replacePair, if_pos h, containsPair]
      rw [containsPair_replacePair_self a b c hca hcb rest]
      simp [hca]
    · rw [replacePair, if_neg h, containsPair]
      rw [containsPair_replacePair_self a b c hca hcb (y :: rest)]
      rw [Bool.or_false]
      rcases head?_replacePair a b c (y :: rest) with hh | hh <;> rw [hh]
      · by_cases hxa : x = a
        · have hyb : y ≠ b := fun he => h ⟨hxa, he⟩
          simp [hxa, hyb]
        · simp [hxa]
      · simp [beq_iff_eq, hcb]

/-- A replacement step whose output character is neither `a` nor `b` cannot
create an occurrence of the pattern `ab`. -/
theorem containsPair_replacePair_other (a b p q c : Char) (hca : c ≠ a) (hcb : c ≠ b) :
    ∀ l, containsPair a b l = false → containsPair a b (replacePair p q c l) = false
  | [], _ => rfl
  | [x], h => by rw [replacePair]; exact h
  | x :: y :: rest, h => by
    have h1 := containsPair_tail_false h
    by_cases hm : x = p ∧ y = q
    · rw [replacePair, if_pos hm, containsPair]
      rw [containsPair_replacePair_other a b p q c hca hcb rest (containsPair_tail_false h1)]
      simp [hca]
    · rw [replacePair, if_neg hm, containsPair]
      rw [containsPair_replacePair_other a b p q c hca hcb (y :: rest) h1]
      rw [Bool.or_false]
      rcases head?_replacePair p q c (y :: rest) with hh | hh <;> rw [hh]
      · by_cases hxa : x = a
        · have hyb : y ≠ b := by
            intro he
            rw [containsPair] at h
            simp [hxa, he] at h
          simp [hxa, hyb]
        · simp [hxa]
      · simp [beq_iff_eq, hcb]

theorem applyRules_cons (r : (Char × Char) × Char) (rs : List ((Char × Char) × Char))
    (l : List Char) :
    applyRules (r :: rs) l = applyRules rs (replacePair r.1.1 r.1.2 r.2 l) := rfl

theorem applyRules_append (rs₁ rs₂ : List ((Char × Char) × Char)) (l : List Char) :
    applyRules (rs₁ ++ rs₂) l = applyRules rs₂ (applyRules rs₁ l) :=
  List.foldl_append ..

/-- A table none of whose output characters is `a` or `b` preserves absence
of the pattern `ab`. -/
theorem applyRules_keeps_absent (a b : Char) :
    ∀ rs : List ((Char × Char) × Char), (∀ r ∈ rs, r.2 ≠ a ∧ r.2 ≠ b) →
      ∀ l, containsPair a b l = false → containsPair a b (applyRules rs l) = false
  | [], _, _, h => h
  | r :: rs, hr, l, h => by
    rw [applyRules_cons]
    exact applyRules_keeps_absent a b rs (fun x hx => hr x (List.mem_cons_of_mem r hx)) _
      (containsPair_replacePair_other a b r.1.1 r.1.2 r.2
        (hr r (List.mem_cons_self _ _)).1 (hr r (List.mem_cons_self _ _)).2 l h)

/-- If a character occurs nowhere in the list, no pattern starting with it
occurs either. -/
theorem containsPair_false_of_not_mem (a b : Char) :
    ∀ l : List Char, a ∉ l → containsPair a b l = false
  | [], _ => rfl
  | x :: rest, h => by
    rw [containsPair, containsPair_false_of_not_mem a b rest (fun hm => h (List.mem_cons_of_mem x hm))]
    have hxa : x ≠ a := fun he => h (he ▸ List.mem_cons_self _ _)
    simp [hxa]

/-- A table all of whose patterns start with `'√'` is the identity on
`'√'`-free strings. -/
theorem applyRules_eq_self_of_sqrt_free :
    ∀ rs : List ((Char × Char) × Char), (∀ r ∈ rs, r.1.1 = '√') →
      ∀ l, '√' ∉ l → applyRules rs l = l
  | [], _, _, _ => rfl
  | r :: rs, hr, l, h => by
    rw [applyRules_cons,
      replacePair_eq_self r.1.1 r.1.2 r.2 l
        (hr r (List.mem_cons_self _ _) ▸ containsPair_false_of_not_mem '√' r.1.2 l h)]
    exact applyRules_eq_self_of_sqrt_free rs (fun x hx => hr x (List.mem_cons_of_mem r hx)) l h

/-! ### Properties of `trimChars` -/

theorem dropWhile_head?_false (p : Char → Bool) :
    ∀ l : List Char, ∀ x, (l.dropWhile p).head? = some x → p x = false := by
  intro l
  induction l with
  | nil => intro x hx; cases hx
  | cons c t ih =>
    intro x hx
    by_cases h : p c
    · rw [List.dropWhile_cons, if_pos h] at hx
      exact ih x hx
    · rw [List.dropWhile_cons, if_neg h] at hx
      rw [List.head?_cons, Option.some.injEq] at hx
      rw [← hx]
      simpa using h

theorem dropWhile_eq_self_of_head? (p : Char → Bool) (l : List Char)
    (h : ∀ x, l.head? = some x → p x = false) : l.dropWhile p = l := by
  cases l with
  | nil => rfl
  | cons c t =>
    rw [List.dropWhile_cons, if_neg]
    rw [h c rfl]
    simp

theorem dropWhile_dropWhile (p : Char → Bool) (l : List Char) :
    (l.dropWhile p).dropWhile p = l.dropWhile p :=
  dropWhile_eq_self_of_head? p _ (dropWhile_head?_false p l)

theorem suffix_getLast? {s l : List Char} (h : s <:+ l) (hs : s ≠ []) :
    s.getLast? = l.getLast? := by
  obtain ⟨t, ht⟩ := h
  rw [← ht, List.getLast?_append_of_ne_nil _ hs]

theorem trimChars_idem (l : List Char) : trimChars (trimChars l) = trimChars l := by
  unfold trimChars
  set p := isJsWhitespace with hp
  set u := l.dropWhile p with hu
  set v := u.reverse.dropWhile p with hv
  have hfix : v.reverse.dropWhile p = v.reverse := by
    apply dropWhile_eq_self_of_head?
    intro x hx
    rw [List.head?_reverse] at hx
    have hvne : v ≠ [] := by
      intro he
      rw [he] at hx
      cases hx
    have hlast : v.getLast? = u.reverse.getLast? :=
      suffix_getLast? (hv ▸ List.dropWhile_suffix p) hvne
    rw [hlast, List.getLast?_reverse] at hx
    exact dropWhile_head?_false p l x (hu ▸ hx)
  rw [hfix, List.reverse_reverse, hv, dropWhile_dropWhile]

theorem mem_trimChars {x : Char} {l : List Char} (h : x ∈ trimChars l) : x ∈ l := by
  unfold trimChars at h
  rw [List.mem_reverse] at h
  have h2 := (List.dropWhile_suffix isJsWhitespace).subset h
  rw [List.mem_reverse] at h2
  exact (List.dropWhile_suffix isJsWhitespace).subset h2

/-! ### C9: the two duplicate-pattern rules are dead -/

/-- Rules 1–2 of the table (up to and including the first `√¶` rule). -/
def rulesS1 : List ((Char × Char) × Char) :=
  [(('√', 'ò'), 'Ø'),
   (('√', '¶'), 'æ')]

/-- Rules 4–9 of the table (after the dead second `√¶` rule, up to and
including the first `√î` rule). -/
def rulesS2 : List ((Char × Char) × Char) :=
  [(('√', '∏'), 'Å'),
   (('√', 'º'), 'ø'),
   (('√', '§'), 'ß'),
   (('√', '©'), 'é'),
   (('√', '¨'), 'è'),
   (('√', 'î'), 'ö')]

/-- Rules 10–19 of the table (between the first `√î` rule and the dead
second one). -/
def rulesS3 : List ((Char × Char) × Char) :=
  [(('√', 'ñ'), 'ü'),
   (('√', 'Ä'), 'ä'),
   (('√', 'á'), 'á'),
   (('√', 'í'), 'í'),
   (('√', 'ó'), 'ó'),
   (('√', 'ú'), 'ú'),
   (('√', 'à'), 'à'),
   (('√', 'ù'), 'ù'),
   (('√', 'â'), 'â'),
   (('√', 'ê'), 'ê')]

/-- Rules 21–29 of the table (after the dead second `√î` rule). -/
def rulesS4 : List ((Char × Char) × Char) :=
  [(('√', 'ô'), 'ô'),
   (('√', 'û'), 'û'),
   (('√', 'ë'), 'ë'),
   (('√', 'ï'), 'ï'),
   (('√', 'ÿ'), 'ÿ'),
   (('√', 'æ'), 'æ'),
   (('√', 'Æ'), 'Æ'),
   (('√', 'Ø'), 'Ø'),
   (('√', 'ö'), 'ö')]

/-- Stated from the claim: the replacement table with the two later
duplicate-pattern rules (`√¶ → å`, line 218, and `√î → î`, line 235)
removed. -/
def rulesDedup : List ((Char × Char) × Char) :=
  rulesS1 ++ (rulesS2 ++ (rulesS3 ++ rulesS4))

/-- Stated from the claim: `NormalizeEncoding` with the deduplicated table. -/
def NormalizeEncodingDedup (s : String) : String :=
  String.mk (applyRules rulesDedup (nfc (trimChars s.toList)))

example : rules = rulesS1 ++ ((('√', '¶'), 'å') ::
    (rulesS2 ++ (rulesS3 ++ ((('√', 'î'), 'î') :: rulesS4)))) := by decide

/-- The replacement chain is extensionally unchanged when the two shadowed
rules are dropped: rule 2 removes every `√¶` occurrence and rules 1–2 cannot
create one, so the second `√¶` rule never fires; rule 9 removes every `√î`
occurrence and rules 10–19 cannot create one, so the second `√î` rule never
fires. -/
theorem applyRules_dedup (l : List Char) : applyRules rules l = applyRules rulesDedup l := by
  have habs1 : containsPair '√' '¶' (applyRules rulesS1 l) = false :=
    containsPair_replacePair_self '√' '¶' 'æ' (by decide) (by decide)
      (replacePair '√' 'ò' 'Ø' l)
  have habs2 : containsPair '√' 'î'
      (applyRules rulesS3 (applyRules rulesS2 (applyRules rulesS1 l))) = false :=
    applyRules_keeps_absent '√' 'î' rulesS3 (by decide) _
      (containsPair_replacePair_self '√' 'î' 'ö' (by decide) (by decide)
        (replacePair '√' '¨' 'è' (replacePair '√' '©' 'é' (replacePair '√' '§' 'ß'
          (replacePair '√' 'º' 'ø' (replacePair '√' '∏' 'Å' (applyRules rulesS1 l)))))))
  have hsplit : rules = rulesS1 ++ ((('√', '¶'), 'å') ::
      (rulesS2 ++ (rulesS3 ++ ((('√', 'î'), 'î') :: rulesS4)))) := by decide
  rw [hsplit, applyRules_append, applyRules_cons]
  rw [replacePair_eq_self _ _ _ _ habs1]
  rw [applyRules_append, applyRules_append, applyRules_cons]
  rw [replacePair_eq_self _ _ _ _ habs2]
  rw [show rulesDedup = rulesS1 ++ (rulesS2 ++ (rulesS3 ++ rulesS4)) from rfl,
    applyRules_append, applyRules_append, applyRules_append]

/-- C9: the two shadowed replacement rules (`√¶ → å` on line 218 and
`√î → î` on line 235) never apply: every `√¶` is rewritten to `æ` by the
earlier rule and every `√î` to `ö`, so the normalizer equals the one whose
table drops the two later duplicate-pattern rules, on every input. -/
theorem C9_shadowed_rules_never_apply (s : String) :
    NormalizeEncoding s = NormalizeEncodingDedup s := by
  unfold NormalizeEncoding NormalizeEncodingDedup
  rw [applyRules_dedup]

/-! ### C5: idempotence of the normalizer -/

/-- C5 (counterexample): the normalizer is not idempotent.  On `"√√á"` the
rule `√á → á` (line 227) consumes the second and third characters and its
output `á`, preceded by the surviving first `√`, forms a fresh `√á`
occurrence that the already-passed rule never revisits: one pass yields
`"√á"`, a second pass yields `"á"`. -/
theorem C5_counterexample :
    NormalizeEncoding (NormalizeEncoding "√√á") ≠ NormalizeEncoding "√√á" := by
  decide

/-- C5 (amended): the normalizer is idempotent on every string containing no
`'√'` (U+221A) character: each pattern of the repair table starts with `√`,
so on a `√`-free string the table acts as the identity and normalization
reduces to trimming, which is idempotent.  (On strings that do contain `√`
idempotence can fail, as `C5_counterexample` shows.) -/
theorem C5_idempotent_on_sqrt_free (s : String) (h : '√' ∉ s.toList) :
    NormalizeEncoding (NormalizeEncoding s) = NormalizeEncoding s := by
  have hrules : ∀ r ∈ rules, r.1.1 = '√' := by decide
  have h1 : '√' ∉ trimChars s.toList := fun hm => h (mem_trimChars hm)
  have e1 : NormalizeEncoding s = String.mk (trimChars s.toList) := by
    unfold NormalizeEncoding nfc
    rw [applyRules_eq_self_of_sqrt_free rules hrules _ h1]
  rw [e1]
  unfold NormalizeEncoding nfc
  rw [show (String.mk (trimChars s.toList)).toList = trimChars s.toList from rfl]
  rw [trimChars_idem]
  rw [applyRules_eq_self_of_sqrt_free rules hrules _ h1]

/-- Witness for `C5_idempotent_on_sqrt_free` at the concrete `√`-free input
`"abc"`. -/
theorem C5_idempotent_on_sqrt_free_witness :
    '√' ∉ "abc".toList ∧
      NormalizeEncoding (NormalizeEncoding "abc") = NormalizeEncoding "abc" :=
  ⟨by decide, C5_idempotent_on_sqrt_free "abc" (by decide)⟩

/-! ### Generic properties of the pagination loop -/

theorem terminalExport_asprData (st : LoopState) :
    (terminalExport st).asprData = st.asprData := rfl

theorem terminalExport_errors (st : LoopState) :
    (terminalExport st).errors = st.errors := rfl

theorem terminalExport_warnings (st : LoopState) :
    (terminalExport st).warnings = st.warnings := rfl

theorem collectLoop_succ (env : Env) (collection_count fuel : Nat) (st : LoopState) :
    collectLoop env collection_count (fuel + 1) st =
      if st.asprData.length < collection_count then
        let st1 := collect_aspr_page_data env collection_count st
        if st1.asprData.length ≥ collection_count then
          some (terminalExport st1)
        else if !st1.nextPageLink then
          some (terminalExport { st1 with errors := st1.errors ++
            ["Next page link not found on page " ++ toString st1.pageCount ++ "."] })
        else
          collectLoop env collection_count fuel
            { st1 with pageCount := st1.pageCount + 1 }
      else some (terminalExport st) := rfl

theorem processRows_length_le (page : Page) (cc : Nat) :
    ∀ rows st, st.asprData.length ≤ cc →
      (processRows page cc rows st).asprData.length ≤ cc
  | [], _, h => h
  | row :: rest, st, h => by
    rw [processRows]
    by_cases hge : st.asprData.length ≥ cc
    · rw [if_pos hge]; exact h
    · rw [if_neg hge]
      refine processRows_length_le page cc rest _ ?_
      show (st.asprData ++ [(extractRecord page row).2]).length ≤ cc
      rw [List.length_append, List.length_singleton]
      omega

theorem processRows_stops_at_quota (page : Page) (cc : Nat) (st : LoopState)
    (rows : List Row) (h : st.asprData.length = cc) :
    processRows page cc rows st = st := by
  cases rows with
  | nil => rfl
  | cons row rest =>
    rw [processRows, if_pos (by omega)]

theorem processRows_mem_records (page : Page) (cc : Nat) :
    ∀ rows st r, r ∈ (processRows page cc rows st).asprData →
      r ∈ st.asprData ∨ ∃ row, r = (extractRecord page row).2
  | [], _, _, h => Or.inl h
  | row :: rest, st, r, h => by
    rw [processRows] at h
    by_cases hge : st.asprData.length ≥ cc
    · rw [if_pos hge] at h; exact Or.inl h
    · rw [if_neg hge] at h
      rcases processRows_mem_records page cc rest _ r h with hm | hm
      · have hm' : r ∈ st.asprData ++ [(extractRecord page row).2] := hm
        rcases List.mem_append.mp hm' with h1 | h1
        · exact Or.inl h1
        · exact Or.inr ⟨row, by simpa using h1⟩
      · exact Or.inr hm

theorem collect_aspr_page_data_length_le (env : Env) (cc : Nat) (st : LoopState)
    (h : st.asprData.length ≤ cc) :
    (collect_aspr_page_data env cc st).asprData.length ≤ cc := by
  unfold collect_aspr_page_data
  by_cases h1 : (env.pages st.pageCount).hasMainContent
  · rw [if_neg (by simp [h1])]
    by_cases h2 : (env.pages st.pageCount).hasNextLink
    · rw [if_neg (by simp [h2])]
      by_cases h3 : (env.pages st.pageCount).rows.length = 0
      · rw [if_pos h3]; exact h
      · rw [if_neg h3]
        exact processRows_length_le _ cc _ _ h
    · rw [if_pos (by simp [h2])]; exact h
  · rw [if_pos (by simp [h1])]; exact h

theorem collect_aspr_page_data_mem (env : Env) (cc : Nat) (st : LoopState) (r : Record)
    (h : r ∈ (collect_aspr_page_data env cc st).asprData) :
    r ∈ st.asprData ∨ ∃ page row, r = (extractRecord page row).2 := by
  unfold collect_aspr_page_data at h
  by_cases h1 : (env.pages st.pageCount).hasMainContent
  · rw [if_neg (by simp [h1])] at h
    by_cases h2 : (env.pages st.pageCount).hasNextLink
    · rw [if_neg (by simp [h2])] at h
      by_cases h3 : (env.pages st.pageCount).rows.length = 0
      · rw [if_pos h3] at h; exact Or.inl h
      · rw [if_neg h3] at h
        rcases processRows_mem_records _ cc _ _ r h with hm | ⟨row, hr⟩
        · exact Or.inl hm
        · exact Or.inr ⟨_, row, hr⟩
    · rw [if_pos (by simp [h2])] at h; exact Or.inl h
  · rw [if_pos (by simp [h1])] at h; exact Or.inl h

theorem collectLoop_length_le (env : Env) (cc : Nat) :
    ∀ fuel st final, st.asprData.length ≤ cc →
      collectLoop env cc fuel st = some final → final.asprData.length ≤ cc
  | 0, _, _, _, he => by cases he
  | fuel + 1, st, final, h, he => by
    rw [collectLoop_succ] at he
    by_cases hlt : st.asprData.length < cc
    · rw [if_pos hlt] at he
      by_cases h2 : (collect_aspr_page_data env cc st).asprData.length ≥ cc
      · rw [if_pos h2] at he
        simp only [Option.some.injEq] at he
        subst he
        rw [terminalExport_asprData]
        exact collect_aspr_page_data_length_le env cc st h
      · rw [if_neg h2] at he
        by_cases h3 : !(collect_aspr_page_data env cc st).nextPageLink
        · rw [if_pos h3] at he
          simp only [Option.some.injEq] at he
          subst he
          rw [terminalExport_asprData]
          show (collect_aspr_page_data env cc st).asprData.length ≤ cc
          exact collect_aspr_page_data_length_le env cc st h
        · rw [if_neg h3] at he
          refine collectLoop_length_le env cc fuel _ final ?_ he
          show (collect_aspr_page_data env cc st).asprData.length ≤ cc
          exact collect_aspr_page_data_length_le env cc st h
    · rw [if_neg hlt] at he
      simp only [Option.some.injEq] at he
      subst he
      rw [terminalExport_asprData]
      exact h

theorem collectLoop_some_shape (env : Env) (cc : Nat) :
    ∀ fuel st final, collectLoop env cc fuel st = some final →
      ∃ st1, final = terminalExport st1
  | 0, _, _, he => by cases he
  | fuel + 1, st, final, he => by
    rw [collectLoop_succ] at he
    by_cases hlt : st.asprData.length < cc
    · rw [if_pos hlt] at he
      by_cases h2 : (collect_aspr_page_data env cc st).asprData.length ≥ cc
      · rw [if_pos h2] at he
        simp only [Option.some.injEq] at he
        exact ⟨_, he.symm⟩
      · rw [if_neg h2] at he
        by_cases h3 : !(collect_aspr_page_data env cc st).nextPageLink
        · rw [if_pos h3] at he
          simp only [Option.some.injEq] at he
          exact ⟨_, he.symm⟩
        · rw [if_neg h3] at he
          exact collectLoop_some_shape env cc fuel _ final he
    · rw [if_neg hlt] at he
      simp only [Option.some.injEq] at he
      exact ⟨_, he.symm⟩

theorem collectLoop_mem (env : Env) (cc : Nat) :
    ∀ fuel st final r, collectLoop env cc fuel st = some final →
      r ∈ final.asprData →
      r ∈ st.asprData ∨ ∃ page row, r = (extractRecord page row).2
  | 0, _, _, _, he, _ => by cases he
  | fuel + 1, st, final, r, he, hm => by
    rw [collectLoop_succ] at he
    by_cases hlt : st.asprData.length < cc
    · rw [if_pos hlt] at he
      by_cases h2 : (collect_aspr_page_data env cc st).asprData.length ≥ cc
      · rw [if_pos h2] at he
        simp only [Option.some.injEq] at he
        subst he
        rw [terminalExport_asprData] at hm
        exact collect_aspr_page_data_mem env cc st r hm
      · rw [if_neg h2] at he
        by_cases h3 : !(collect_aspr_page_data env cc st).nextPageLink
        · rw [if_pos h3] at he
          simp only [Option.some.injEq] at he
          subst he
          rw [terminalExport_asprData] at hm
          exact collect_aspr_page_data_mem env cc st r hm
        · rw [if_neg h3] at he
          rcases collectLoop_mem env cc fuel _ final r he hm with hin | hex
          · exact collect_aspr_page_data_mem env cc st r hin
          · exact Or.inr hex
    · rw [if_neg hlt] at he
      simp only [Option.some.injEq] at he
      subst he
      rw [terminalExport_asprData] at hm
      exact Or.inl hm

theorem extractRecord_abstract (page : Page) (row : Row) :
    (extractRecord page row).2.abstract = "N/A" ∨
      ∃ t, (extractRecord page row).2.abstract = NormalizeEncoding t := by
  cases hb : row.abstractButton <;> cases hc : row.abstractContent <;>
    simp [extractRecord, RetrieveAbstract, hb, hc]

theorem extractRecord_citing (page : Page) (row : Row) :
    (extractRecord page row).2.all_citing_papers_link = "N/A" ∨
      page.downloadLink = some (extractRecord page row).2.all_citing_papers_link := by
  cases hb : row.citationModal <;> cases hc : page.downloadLink <;>
    simp [extractRecord, RetrieveCitingPapersLink, hb, hc]

/-! ### Confirmed claims -/

/-- C4: for every run, the number of collected records never exceeds
`collection_count`: the quota check precedes each row's extraction, and once
the quota is exactly met mid-page the remaining rows are not visited and the
state is returned unchanged. -/
theorem C4_never_overcollects :
    (∀ env collection_count fuel final,
        collect_aspr_data env collection_count fuel = some final →
        final.asprData.length ≤ collection_count)
    ∧ (∀ page collection_count st rows, st.asprData.length = collection_count →
        processRows page collection_count rows st = st) :=
  ⟨fun env cc fuel final he =>
    collectLoop_length_le env cc fuel initialState final (Nat.zero_le cc) he,
   fun page cc st rows h => processRows_stops_at_quota page cc st rows h⟩

/-- C6: every record in the final output carries exactly the seven fixed
keys in insertion order, with every field populated — the `abstract` field is
the sentinel `"N/A"` or a normalized text, and the citing-papers field is the
sentinel or a download link present in some page. -/
theorem C6_records_have_all_fields :
    ∀ env collection_count fuel final,
      collect_aspr_data env collection_count fuel = some final →
      ∀ r ∈ final.asprData,
        r.toPairs.map Prod.fst =
          ["title", "authors", "published_online_date", "cited_by_count",
           "abstract", "article_link", "all_citing_papers_link"]
        ∧ r.toPairs.length = 7
        ∧ (r.abstract = "N/A" ∨ ∃ t, r.abstract = NormalizeEncoding t)
        ∧ (r.all_citing_papers_link = "N/A" ∨
            ∃ page : Page, page.downloadLink = some r.all_citing_papers_link) := by
  intro env cc fuel final he r hr
  refine ⟨rfl, rfl, ?_, ?_⟩
  · rcases collectLoop_mem env cc fuel initialState final r he hr with hin | ⟨page, row, rfl⟩
    · exact absurd hin (List.not_mem_nil _)
    · exact extractRecord_abstract page row
  · rcases collectLoop_mem env cc fuel initialState final r he hr with hin | ⟨page, row, rfl⟩
    · exact absurd hin (List.not_mem_nil _)
    · rcases extractRecord_citing page row with h | h
      · exact Or.inl h
      · exact Or.inr ⟨page, h⟩

/-- C8: whenever the loop reaches its terminal code, the events it then
emits are, in order: the serialized log of the full record list, the export
(which is the no-data console notice exactly when the list is empty), and
only then the flush of the diagnostic buffers. -/
theorem C8_terminal_order :
    ∀ env collection_count fuel final,
      collect_aspr_data env collection_count fuel = some final →
      ∃ preEvents, final.trace = preEvents
        ++ [Event.logJson final.asprData]
        ++ DownlaodResultsAsCSV final.asprData "apsr_results.csv"
        ++ [Event.flushDiag final.errors final.warnings] := by
  intro env cc fuel final he
  obtain ⟨st1, rfl⟩ := collectLoop_some_shape env cc fuel initialState final he
  exact ⟨st1.trace, rfl⟩

/-- C7: the two UI-revealed retrievals are total functions that follow the
stated protocol — absent abstract reveal control: warning naming the title
and `"N/A"`; present control but absent content after the delay: warning and
`"N/A"`; present content: its normalized text with no warning; absent
citation trigger: warning and `"N/A"`; present trigger but absent global
download link: warning and `"N/A"`; present link: its URL; and the citing
retrieval reads the document-global link, so its result is identical for any
two rows whose trigger is present. -/
theorem C7_ui_retrieval_protocol :
    ∀ (page : Page) (row : Row) (title : String),
      (row.abstractButton = false →
        RetrieveAbstract row title =
          (["Abstract extraction failed for \"" ++ title ++ "\"."], "N/A"))
      ∧ (row.abstractButton = true → row.abstractContent = none →
          RetrieveAbstract row title =
            (["Abstract not found for \"" ++ title ++ "\"."], "N/A"))
      ∧ (∀ text, row.abstractButton = true → row.abstractContent = some text →
          RetrieveAbstract row title = ([], NormalizeEncoding text))
      ∧ (row.citationModal = false →
          RetrieveCitingPapersLink page row title =
            (["Popup initiation failed for \"" ++ title ++ "\"."], "N/A"))
      ∧ (row.citationModal = true → page.downloadLink = none →
          RetrieveCitingPapersLink page row title =
            (["Download link not found for \"" ++ title ++ "\"."], "N/A"))
      ∧ (∀ link, row.citationModal = true → page.downloadLink = some link →
          RetrieveCitingPapersLink page row title = ([], link))
      ∧ (∀ row2, row.citationModal = true → row2.citationModal = true →
          RetrieveCitingPapersLink page row title =
            RetrieveCitingPapersLink page row2 title) := by
  intro page row title
  refine ⟨?_, ?_, ?_, ?_, ?_, ?_, ?_⟩ <;> intros <;>
    simp_all [RetrieveAbstract, RetrieveCitingPapersLink]

/-- Stated from the claim: the CSV header line — the first record's keys
joined by commas. -/
def csvHeaderLine (r : Record) : String :=
  jsJoin "," (r.toPairs.map Prod.fst)

/-- Stated from the claim: one CSV line per record — each field value wrapped
in double quotes with no escaping of embedded quotes, commas or newlines,
joined by commas. -/
def csvRecordLine (r : Record) : String :=
  jsJoin "," (r.toPairs.map fun kv => "\"" ++ kv.2 ++ "\"")

theorem jsJoin_cons_of_ne_nil (sep a : String) (l : List String) (h : l ≠ []) :
    jsJoin sep (a :: l) = a ++ sep ++ jsJoin sep l := by
  cases l with
  | nil => exact absurd rfl h
  | cons b t => rfl

/-- C10: on a non-empty record list the export is a single file save whose
content is the byte-order mark followed by the header line (the first
record's keys joined by commas) and one line per record, in order, joined by
newlines, each value in unescaped double quotes. -/
theorem C10_csv_format :
    ∀ (first : Record) (rest : List Record),
      DownlaodResultsAsCSV (first :: rest) "apsr_results.csv" =
        [Event.saveFile
          ("\uFEFF" ++
            jsJoin "\n" (csvHeaderLine first :: (first :: rest).map csvRecordLine))
          "apsr_results.csv"] := by
  intro first rest
  rw [jsJoin_cons_of_ne_nil _ _ _ (by simp)]
  rfl

/-! ### Witness run: a single page that meets a quota of one -/

/-- A minimal row: no reveal control and no citation trigger. -/
def rowW : Row :=
  { titleText := "", authorTexts := [], dateText := "", citedByText := "",
    articleHref := "", abstractButton := false, abstractContent := none,
    citationModal := false }

/-- A page holding `rowW`, with container and next-page link present. -/
def pageW : Page :=
  { hasMainContent := true, hasNextLink := true, rows := [rowW],
    downloadLink := none }

/-- Every document is `pageW`. -/
def envW : Env := ⟨fun _ => pageW⟩

/-- The final state of the terminating run `collect_aspr_data envW 1 1`. -/
def finalW : LoopState :=
  (collect_aspr_data envW 1 1).getD initialState

example : collect_aspr_data envW 1 1 = some finalW := rfl

/-- The record that run collects. -/
def recW : Record :=
  { title := "", authors := "", published_online_date := "",
    cited_by_count := "", abstract := "N/A", article_link := "",
    all_citing_papers_link := "N/A" }

example : finalW.asprData = [recW] := by decide

/-- Witness for `C4_never_overcollects`: the concrete run `envW` with quota 1
collects at most one record, and `processRows` at an exactly-met quota (0 of
0) returns the state unchanged. -/
theorem C4_never_overcollects_witness :
    finalW.asprData.length ≤ 1 ∧ processRows pageW 0 [rowW] initialState = initialState :=
  ⟨C4_never_overcollects.1 envW 1 1 finalW rfl,
   C4_never_overcollects.2 pageW 0 initialState [rowW] rfl⟩

/-- Witness for `C6_records_have_all_fields` at the record collected by the
concrete run `envW`. -/
theorem C6_records_have_all_fields_witness :
    recW.toPairs.map Prod.fst =
        ["title", "authors", "published_online_date", "cited_by_count",
         "abstract", "article_link", "all_citing_papers_link"]
      ∧ recW.toPairs.length = 7
      ∧ (recW.abstract = "N/A" ∨ ∃ t, recW.abstract = NormalizeEncoding t)
      ∧ (recW.all_citing_papers_link = "N/A" ∨
          ∃ page : Page, page.downloadLink = some recW.all_citing_papers_link) :=
  C6_records_have_all_fields envW 1 1 finalW rfl recW (by decide)

/-- Witness for `C8_terminal_order` on the concrete terminating run `envW`. -/
theorem C8_terminal_order_witness :
    ∃ preEvents, finalW.trace = preEvents
      ++ [Event.logJson finalW.asprData]
      ++ DownlaodResultsAsCSV finalW.asprData "apsr_results.csv"
      ++ [Event.flushDiag finalW.errors finalW.warnings] :=
  C8_terminal_order envW 1 1 finalW rfl

/-- Rows and pages exercising every branch of the C7 protocol. -/
def rowContentW : Row :=
  { titleText := "T", authorTexts := [], dateText := "", citedByText := "",
    articleHref := "", abstractButton := true, abstractContent := some "x",
    citationModal := true }

/-- A row whose reveal control exists but whose content never appears. -/
def rowPendingW : Row :=
  { titleText := "T", authorTexts := [], dateText := "", citedByText := "",
    articleHref := "", abstractButton := true, abstractContent := none,
    citationModal := true }

/-- A page whose global download link is present. -/
def pageLinkW : Page :=
  { hasMainContent := true, hasNextLink := true, rows := [], downloadLink := some "u" }

/-- Witness for `C7_ui_retrieval_protocol`, discharging each branch of the
protocol at concrete rows and pages. -/
theorem C7_ui_retrieval_protocol_witness :
    RetrieveAbstract rowW "T" = (["Abstract extraction failed for \"T\"."], "N/A")
    ∧ RetrieveAbstract rowPendingW "T" = (["Abstract not found for \"T\"."], "N/A")
    ∧ RetrieveAbstract rowContentW "T" = ([], NormalizeEncoding "x")
    ∧ RetrieveCitingPapersLink pageW rowW "T" =
        (["Popup initiation failed for \"T\"."], "N/A")
    ∧ RetrieveCitingPapersLink pageW rowPendingW "T" =
        (["Download link not found for \"T\"."], "N/A")
    ∧ RetrieveCitingPapersLink pageLinkW rowPendingW "T" = ([], "u")
    ∧ RetrieveCitingPapersLink pageLinkW rowPendingW "T" =
        RetrieveCitingPapersLink pageLinkW rowContentW "T" :=
  ⟨(C7_ui_retrieval_protocol pageW rowW "T").1 rfl,
   (C7_ui_retrieval_protocol pageW rowPendingW "T").2.1 rfl rfl,
   (C7_ui_retrieval_protocol pageW rowContentW "T").2.2.1 "x" rfl rfl,
   (C7_ui_retrieval_protocol pageW rowW "T").2.2.2.1 rfl,
   (C7_ui_retrieval_protocol pageW rowPendingW "T").2.2.2.2.1 rfl rfl,
   (C7_ui_retrieval_protocol pageLinkW rowPendingW "T").2.2.2.2.2.1 "u" rfl rfl,
   (C7_ui_retrieval_protocol pageLinkW rowPendingW "T").2.2.2.2.2.2 rowContentW rfl rfl⟩

/-! ### C2: a missing next-page link discards the whole page -/

/-- A fully-populated row for the C2 scenario. -/
def rowB : Row :=
  { titleText := "T", authorTexts := ["A"], dateText := "2020",
    citedByText := "3", articleHref := "L", abstractButton := true,
    abstractContent := some "Abs", citationModal := true }

/-- Scenario B's only page: container present, next-page link absent, four
extractable rows. -/
def pageB : Page :=
  { hasMainContent := true, hasNextLink := false,
    rows := [rowB, rowB, rowB, rowB], downloadLink := some "DL" }

/-- Every document is `pageB`. -/
def envB : Env := ⟨fun _ => pageB⟩

/-- C2 (evaluation at the failing input): with quota 10 and a single page of
four extractable rows whose next-page link is absent, the page routine
returns right after pushing the warning — before visiting any row — so the
run terminates with zero records (not four), the single loop error, and the
warning. -/
theorem C2_missing_next_link_discards_page :
    (collect_aspr_data envB 10 1).map (fun f => (f.asprData, f.errors, f.warnings)) =
      some ([], ["Next page link not found on page 0."],
        ["Next page link NOT found. Collection quantity may run short."]) := rfl

/-! ### C1: a page-fatal condition after page one never stops the loop -/

/-- First row of the successful first page of scenario D. -/
def rowD1 : Row :=
  { titleText := "T1", authorTexts := [], dateText := "", citedByText := "",
    articleHref := "", abstractButton := true, abstractContent := some "A1",
    citationModal := true }

/-- Second row of the successful first page of scenario D. -/
def rowD2 : Row :=
  { titleText := "T2", authorTexts := [], dateText := "", citedByText := "",
    articleHref := "", abstractButton := true, abstractContent := some "A2",
    citationModal := true }

/-- Scenario D's first page: two extractable rows and a next-page link. -/
def pageD0 : Page :=
  { hasMainContent := true, hasNextLink := true, rows := [rowD1, rowD2],
    downloadLink := some "DL" }

/-- Scenario D's second and later documents: the results container is absent. -/
def pageDbad : Page :=
  { hasMainContent := false, hasNextLink := false, rows := [],
    downloadLink := none }

/-- Scenario D: page one succeeds with two records, every later document
lacks the results container. -/
def envD : Env := ⟨fun k => if k = 0 then pageD0 else pageDbad⟩

/-- The loop state after scenario D's first iteration (the two collected
records, the still-referenced page-one next-page link, page count already
advanced). -/
def stD1 : LoopState :=
  { asprData :=
      [{ title := "T1", authors := "", published_online_date := "",
         cited_by_count := "", abstract := "A1", article_link := "",
         all_citing_papers_link := "DL" },
       { title := "T2", authors := "", published_online_date := "",
         cited_by_count := "", abstract := "A2", article_link := "",
         all_citing_papers_link := "DL" }],
    nextPageLink := true, pageCount := 1, errors := [], warnings := [],
    trace := [] }

/-- In scenario D, once two records are collected, the stale-but-present
next-page link keeps the loop running: each iteration pushes the fatal
container error and re-clicks the page-one link, for any amount of fuel. -/
theorem collectLoopD_stuck :
    ∀ fuel st, st.asprData.length = 2 → st.nextPageLink = true →
      st.pageCount ≠ 0 → collectLoop envD 10 fuel st = none
  | 0, _, _, _, _ => rfl
  | fuel + 1, st, h2, hn, hp => by
    have hpage : envD.pages st.pageCount = pageDbad := by
      simp [envD, hp]
    have hpd : collect_aspr_page_data envD 10 st =
        { st with errors := st.errors ++ ["Selector #maincontent NOT found."],
                  trace := st.trace ++ [Event.flushDiag
                    (st.errors ++ ["Selector #maincontent NOT found."]) st.warnings] } := by
      unfold collect_aspr_page_data
      rw [hpage]
      rfl
    rw [collectLoop_succ, if_pos (show st.asprData.length < 10 by omega)]
    simp only [hpd]
    rw [if_neg (show ¬(st.asprData.length ≥ 10) by omega)]
    rw [if_neg (show ¬((!st.nextPageLink) = true) by simp [hn])]
    exact collectLoopD_stuck fuel _ (by simpa using h2) (by simpa using hn)
      (by simp)

/-- C1 (evaluation at the failing input): in scenario D (quota 10, page one
yields two records, results container absent from page two on) the loop
never reaches its terminal code — the fatal error does not stop pagination,
the stale next-page link is clicked forever, and nothing is ever exported. -/
theorem C1_fatal_never_reaches_terminal :
    ∀ fuel, collect_aspr_data envD 10 fuel = none := by
  intro fuel
  cases fuel with
  | zero => rfl
  | succ n =>
    have hstep : collect_aspr_data envD 10 (n + 1) = collectLoop envD 10 n stD1 := rfl
    rw [hstep]
    exact collectLoopD_stuck n stD1 rfl rfl (by decide)

/-! ### C3: the loop need not terminate at all -/

/-- A page with container and next-page link but zero result rows. -/
def pageE : Page :=
  { hasMainContent := true, hasNextLink := true, rows := [],
    downloadLink := none }

/-- Every document is `pageE`. -/
def envE : Env := ⟨fun _ => pageE⟩

/-- With every page showing zero rows but a present next-page link, each
iteration pushes the fatal `No search results found.` error and advances to
the next page, for any amount of fuel. -/
theorem collectLoopE_stuck :
    ∀ fuel st, st.asprData.length = 0 → collectLoop envE 1 fuel st = none
  | 0, _, _ => rfl
  | fuel + 1, st, h0 => by
    have hpd : collect_aspr_page_data envE 1 st =
        { st with nextPageLink := true,
                  errors := st.errors ++ ["No search results found."],
                  trace := st.trace ++ [Event.flushDiag
                    (st.errors ++ ["No search results found."]) st.warnings] } := rfl
    rw [collectLoop_succ, if_pos (show st.asprData.length < 1 by omega)]
    simp only [hpd]
    rw [if_neg (show ¬(st.asprData.length ≥ 1) by omega)]
    rw [if_neg (show ¬((!(true : Bool)) = true) by simp)]
    exact collectLoopE_stuck fuel _ (by simpa using h0)

/-- C3 (evaluation at the failing input): with quota 1 and every page showing
a results container, a next-page link and zero rows, the pagination loop
never reaches a terminal state and export is never attempted, for any fuel. -/
theorem C3_nontermination :
    ∀ fuel, collect_aspr_data envE 1 fuel = none :=
  fun fuel => collectLoopE_stuck fuel initialState rfl
